import Mathlib

/-
Shallow embedding of the graph-construction layer and the five analysis
passes of `src/modules/graph_linter.py` (class `OfflineFlowGraph`).

Modelling conventions:
* Python dicts become association lists `List (String × _)`; dict lookup is
  `alookup` (first match), dict insertion is `assocInsert` (replace in place).
* Python JSON values become structures with `Option`/`List` fields; a missing
  key is `none` / `[]`.  Truthiness of an optional string (`if route.get(…):`)
  is `isTruthy`.
* `form` is modelled by its `parameters` list only: every consumer of `form`
  in the source reads `form["parameters"]` (defaulting to `[]`), so a page
  with an absent form and a page with an empty parameter list are
  indistinguishable to the linter.
* `entryFulfillment` is modelled by the boolean
  `bool(ef.get("messages") or ef.get("webhook"))`, the only way the source
  reads it (`has_entry_fulfillment`).
* The two unbounded loops of the source (the BFS worklist of
  `find_reachable_pages` and the recursion of `detect_loops_rec`) are given
  explicit fuel; fuel-sufficiency theorems below show the chosen fuel is
  enough, so the functions agree with the source's loops.
* The `visited_in_path` parameter of `detect_loops_rec` is never read by the
  source and is omitted.
* Python `set` iteration order is unspecified; where the source iterates a
  set built from dict keys (`check_unreachable_pages`) we iterate the keys in
  insertion order after removing duplicates (`dedup`), which matches the
  source's multiset of emitted findings.
-/

namespace DfcxGraphLinter

/-- Severity level of a finding, the `"Severity"` field of an issue dict. -/
inductive Severity
| Info
| Warning
| Error
deriving DecidableEq

/-- One issue dict emitted by an analysis pass:
`{"Flow": …, "Page": …, "Issue": …, "Severity": …}`. -/
structure Finding where
  flow : String
  page : String
  issue : String
  severity : Severity
deriving DecidableEq

/-- A transition route, event handler, or reprompt event handler entry.
The source treats all three uniformly as dicts and reads the keys
`condition`, `intent`, `targetPage`, `targetFlow`, `event` from them. -/
structure Route where
  condition : Option String := none
  intent : Option String := none
  targetPage : Option String := none
  targetFlow : Option String := none
  event : Option String := none
deriving DecidableEq

/-- One form parameter; the source reads only
`param["fillBehavior"]["repromptEventHandlers"]` from it. -/
structure Param where
  repromptEventHandlers : List Route := []
deriving DecidableEq

/-- A page document (`pages/*.json`). -/
structure Page where
  name : Option String := none
  displayName : Option String := none
  transitionRoutes : List Route := []
  eventHandlers : List Route := []
  transitionRouteGroups : List String := []
  formParameters : List Param := []
  entryFulfillment : Bool := false
deriving DecidableEq

/-- A flow document (`<flowDirName>.json`). -/
structure Flow where
  name : Option String := none
  displayName : Option String := none
  transitionRoutes : List Route := []
  eventHandlers : List Route := []
  transitionRouteGroups : List String := []
deriving DecidableEq

/-- A transition route group document (`transitionRouteGroups/*.json`). -/
structure TRG where
  name : Option String := none
  displayName : Option String := none
  transitionRoutes : List Route := []
deriving DecidableEq

/-- The loaded agent graph: the four dicts of `OfflineFlowGraph.__init__`. -/
structure Graph where
  flows : List (String × Flow) := []
  pages : List (String × List (String × Page)) := []
  trgs : List (String × List (String × TRG)) := []
  flowNameMap : List (String × String) := []
deriving DecidableEq

/-- Python truthiness of an optional string: `None` and `""` are falsy. -/
def isTruthy : Option String → Bool
  | none => false
  | some s => decide (s ≠ "")

/-- First-match association-list lookup, modelling Python dict indexing. -/
def alookup {α : Type} : List (String × α) → String → Option α
  | [], _ => none
  | (k, v) :: rest, key => if k = key then some v else alookup rest key

/-- Association-list insertion replacing an existing binding in place,
modelling Python dict assignment `d[k] = v`. -/
def assocInsert {α : Type} (k : String) (v : α) : List (String × α) → List (String × α)
  | [] => [(k, v)]
  | (k', v') :: rest => if k' = k then (k, v) :: rest else (k', v') :: assocInsert k v rest

/-- Boolean substring test on character lists, modelling Python `sub in s`. -/
def subSeq {α : Type} [DecidableEq α] (needle : List α) : List α → Bool
  | [] => needle.isEmpty
  | a :: rest => needle.isPrefixOf (a :: rest) || subSeq needle rest

/-- Python `s.lower()` (ASCII case fold, which is all the linter compares). -/
def strToLower (s : String) : String := ⟨s.data.map Char.toLower⟩

/-- Python `s.endswith(t)`. -/
def strEndsWith (s t : String) : Bool := t.data.isSuffixOf s.data

/-- Characters after the last slash; helper for `basename`. -/
def afterLastSlash : List Char → List Char → List Char
  | [], cur => cur
  | c :: cs, cur => if c = '/' then afterLastSlash cs [] else afterLastSlash cs (cur ++ [c])

/-- Python `os.path.basename`: the part of the path after the last `/`. -/
def basename (s : String) : String := ⟨afterLastSlash s.data []⟩

/-- The pages dict of one flow: `self.pages.get(flow_id, {})`. -/
def Graph.pagesOf (g : Graph) (fid : String) : List (String × Page) :=
  (alookup g.pages fid).getD []

/-- The route-group dict of one flow: `self.trgs.get(flow_id, {})`. -/
def Graph.trgsOf (g : Graph) (fid : String) : List (String × TRG) :=
  (alookup g.trgs fid).getD []

/-- `OfflineFlowGraph.get_page_display_name`. -/
def getPageDisplayName (g : Graph) (fid pid : String) : String :=
  if pid = "Start" then "Start"
  else match alookup (g.pagesOf fid) pid with
    | some p => p.displayName.getD pid
    | none => pid

/-- `OfflineFlowGraph.resolve_trg`: first stored group whose id or canonical
name equals the reference. -/
def resolveTrg (g : Graph) (fid : String) (ref : String) : Option TRG :=
  (g.trgsOf fid).findSome? (fun it =>
    if it.1 = ref ∨ it.2.name = some ref then some it.2 else none)

/-- `OfflineFlowGraph.resolve_page_id`: exact key match first, then first
page whose basename suffix, canonical name, or display name matches. -/
def resolvePageId (g : Graph) (fid : String) (ref : Option String) : Option String :=
  match ref with
  | none => none
  | some r =>
    if r = "" then none
    else if (alookup (g.pagesOf fid) r).isSome then some r
    else (g.pagesOf fid).findSome? (fun it =>
      if strEndsWith r ("/" ++ basename it.1) = true ∨ it.2.name = some r ∨ it.2.displayName = some r
      then some it.1 else none)

/-- Outgoing transitions of the `"Start"` address: the flow's own routes,
then its resolved route groups' routes, then its event handlers. -/
def startTransitions (g : Graph) (fid : String) : List Route :=
  match alookup g.flows fid with
  | none => []
  | some fl =>
    fl.transitionRoutes
      ++ fl.transitionRouteGroups.flatMap (fun ref =>
          match resolveTrg g fid ref with
          | some trg => trg.transitionRoutes
          | none => [])
      ++ fl.eventHandlers

/-- Outgoing transitions of a stored page as collected by
`find_reachable_pages` (no form reprompt handlers). -/
def pageTransitions (g : Graph) (fid pid : String) : List Route :=
  match alookup (g.pagesOf fid) pid with
  | none => []
  | some p =>
    p.transitionRoutes
      ++ p.transitionRouteGroups.flatMap (fun ref =>
          match resolveTrg g fid ref with
          | some trg => trg.transitionRoutes
          | none => [])
      ++ p.eventHandlers

/-- Edge collection of the reachability BFS at one address. -/
def bfsTransitions (g : Graph) (fid cur : String) : List Route :=
  if cur = "Start" then startTransitions g fid else pageTransitions g fid cur

/-- One edge step of the reachability BFS: follow `targetPage` when truthy
and resolvable, enqueueing unseen pages.  The accumulator is
`(visited, newly enqueued)`.  Note the source never reads `targetFlow` here. -/
def bfsStep (g : Graph) (fid : String) (acc : List String × List String) (route : Route) :
    List String × List String :=
  if isTruthy route.targetPage then
    match resolvePageId g fid route.targetPage with
    | some pid => if pid ∈ acc.1 then acc else (pid :: acc.1, acc.2 ++ [pid])
    | none => acc
  else acc

/-- Fuelled worklist loop of `find_reachable_pages`. -/
def bfsLoop (g : Graph) (fid : String) : Nat → List String → List String → List String
  | 0, _, visited => visited
  | _ + 1, [], visited => visited
  | fuel + 1, cur :: rest, visited =>
    let r := (bfsTransitions g fid cur).foldl (bfsStep g fid) (visited, [])
    bfsLoop g fid fuel (rest ++ r.2) r.1

/-- `OfflineFlowGraph.find_reachable_pages`: BFS from `"Start"`.  The fuel
`#pages + 1` is sufficient (each iteration pops one queue entry and entries
are enqueued at most once per page; see the fuel-stability theorem). -/
def findReachablePages (g : Graph) (fid : String) : List String :=
  bfsLoop g fid ((g.pagesOf fid).length + 1) ["Start"] ["Start"]

/-- Findings of `check_unreachable_pages` for one flow. -/
def unreachableIssuesForFlow (g : Graph) (fid : String) (fl : Flow) : List Finding :=
  let reachable := findReachablePages g fid
  (((g.pagesOf fid).map Prod.fst).dedup.filter (fun pid => decide (pid ∉ reachable))).map
    (fun pid =>
      { flow := fl.displayName.getD fid, page := getPageDisplayName g fid pid,
        issue := "Unreachable Page", severity := Severity.Warning })

/-- `OfflineFlowGraph.check_unreachable_pages`. -/
def checkUnreachablePages (g : Graph) : List Finding :=
  g.flows.flatMap (fun fp => unreachableIssuesForFlow g fp.1 fp.2)

/-- Whether any route of the list names a (truthy) triggering intent. -/
def hasIntentRoute (rs : List Route) : Bool := rs.any (fun r => isTruthy r.intent)

/-- The input-page test used inline by `check_missing_event_handlers` and
`check_stuck_pages`: `has_intents or has_form`. -/
def pageAcceptsInput (p : Page) : Bool :=
  hasIntentRoute p.transitionRoutes || !p.formParameters.isEmpty

/-- Event names collected by `check_missing_event_handlers`: the page's own
event handlers plus all form parameters' reprompt event handlers.  (The
source guards the reprompt part by `has_form`, which is equivalent since a
form-less page contributes an empty parameter list.) -/
def mehEvents (p : Page) : List (Option String) :=
  p.eventHandlers.map Route.event
    ++ p.formParameters.flatMap (fun param => param.repromptEventHandlers.map Route.event)

/-- Python `any(sub in e for e in events if e)`. -/
def eventsContain (events : List (Option String)) (sub : String) : Bool :=
  events.any (fun e =>
    match e with
    | none => false
    | some s => if s = "" then false else subSeq sub.data s.data)

/-- Findings of `check_missing_event_handlers` for one page. -/
def mehPageIssues (flowDisp pid : String) (p : Page) : List Finding :=
  if pageAcceptsInput p then
    let events := mehEvents p
    let hasNoInput := eventsContain events "no-input"
    let hasNoMatch := eventsContain events "no-match"
    if !hasNoInput || !hasNoMatch then
      let missing := (if !hasNoInput then ["no-input"] else [])
        ++ (if !hasNoMatch then ["no-match"] else [])
      [{ flow := flowDisp, page := p.displayName.getD pid,
         issue := "Missing Event Handlers: " ++ String.intercalate ", " missing,
         severity := Severity.Warning }]
    else []
  else []

/-- `OfflineFlowGraph.check_missing_event_handlers`. -/
def checkMissingEventHandlers (g : Graph) : List Finding :=
  g.flows.flatMap (fun fp =>
    (g.pagesOf fp.1).flatMap (fun pp =>
      mehPageIssues (fp.2.displayName.getD fp.1) pp.1 pp.2))

/-- Findings of `check_stuck_pages` for one page. -/
def stuckPageIssues (flowDisp pid : String) (p : Page) : List Finding :=
  if !pageAcceptsInput p then
    let hasTrueRoute : Bool :=
      decide (∃ r ∈ p.transitionRoutes, strToLower (r.condition.getD "") = "true")
    if !hasTrueRoute then
      [{ flow := flowDisp, page := p.displayName.getD pid,
         issue := "Potential Stuck Page (No Input, No True Route)",
         severity := Severity.Error }]
    else []
  else []

/-- `OfflineFlowGraph.check_stuck_pages`. -/
def checkStuckPages (g : Graph) : List Finding :=
  g.flows.flatMap (fun fp =>
    (g.pagesOf fp.1).flatMap (fun pp =>
      stuckPageIssues (fp.2.displayName.getD fp.1) pp.1 pp.2))

/-- Canonical names of route groups referenced by the flow or its pages,
as collected by `check_unused_route_groups` (`used_trgs`). -/
def usedTrgNames (g : Graph) (fid : String) (fl : Flow) : List (Option String) :=
  fl.transitionRouteGroups.filterMap (fun ref => (resolveTrg g fid ref).map TRG.name)
    ++ (g.pagesOf fid).flatMap (fun pp =>
        pp.2.transitionRouteGroups.filterMap (fun ref => (resolveTrg g fid ref).map TRG.name))

/-- `OfflineFlowGraph.check_unused_route_groups`. -/
def checkUnusedRouteGroups (g : Graph) : List Finding :=
  g.flows.flatMap (fun fp =>
    let used := usedTrgNames g fp.1 fp.2
    (g.trgsOf fp.1).flatMap (fun tp =>
      if tp.2.name ∉ used ∧ some tp.1 ∉ used then
        [{ flow := fp.2.displayName.getD fp.1, page := "N/A",
           issue := "Unused Route Group: " ++ tp.2.displayName.getD "None",
           severity := Severity.Info }]
      else []))

/-- Whether any resolved route group of the reference list has an
intent-bearing route. -/
def trgRoutesHaveIntent (g : Graph) (fid : String) (refs : List String) : Bool :=
  refs.any (fun ref =>
    match resolveTrg g fid ref with
    | some trg => hasIntentRoute trg.transitionRoutes
    | none => false)

/-- `OfflineFlowGraph.is_input_page`. -/
def isInputPage (g : Graph) (fid pid : String) : Bool :=
  if pid = "Start" then
    match alookup g.flows fid with
    | none => false
    | some fl =>
      hasIntentRoute fl.transitionRoutes || trgRoutesHaveIntent g fid fl.transitionRouteGroups
  else
    match alookup (g.pagesOf fid) pid with
    | none => false
    | some p =>
      if !p.formParameters.isEmpty then true
      else hasIntentRoute p.transitionRoutes || trgRoutesHaveIntent g fid p.transitionRouteGroups

/-- `OfflineFlowGraph.has_entry_fulfillment`. -/
def hasEntryFulfillment (g : Graph) (fid pid : String) : Bool :=
  if pid = "Start" then false
  else match alookup (g.pagesOf fid) pid with
    | some p => p.entryFulfillment
    | none => false

/-- Python `' -> '.join(names)`. -/
def joinArrows (l : List String) : String := String.intercalate " -> " l

/-- Edge weight of `detect_loops_rec`: 2 when the destination page has an
entry fulfillment, else 1. -/
def edgeCost (g : Graph) (fid tid : String) : Nat :=
  if hasEntryFulfillment g fid tid then 2 else 1

/-- The threshold finding message
`f"Possible Infinite Loop (Depth {new_count}): {' -> '.join(new_path + [target])}"`. -/
def possibleLoopMsg (npath : List String) (tname : String) (nc : Nat) : String :=
  "Possible Infinite Loop (Depth " ++ Nat.repr nc ++ "): " ++ joinArrows (npath ++ [tname])

/-- The cycle finding message
`f"Infinite Loop Detected: {' -> '.join(new_path + [target])}"`. -/
def cycleLoopMsg (npath : List String) (tname : String) : String :=
  "Infinite Loop Detected: " ++ joinArrows (npath ++ [tname])

/-- Construction of a loop finding: the `"Flow"` field is
`self.flows[flow_id].get("displayName", flow_id)`, the `"Page"` field the
page name passed at the emission site, severity always `Warning`. -/
def mkLoopIssue (g : Graph) (fid : String) (pageName msg : String) : Finding :=
  { flow := match alookup g.flows fid with
      | some fl => fl.displayName.getD fid
      | none => fid,
    page := pageName, issue := msg, severity := Severity.Warning }

/-- Edge collection of `detect_loops_rec`: as in the BFS, plus the reprompt
event handlers of every form parameter. -/
def dfsRoutes (g : Graph) (fid cur : String) : List Route :=
  if cur = "Start" then startTransitions g fid
  else match alookup (g.pagesOf fid) cur with
    | none => []
    | some p =>
      p.transitionRoutes
        ++ p.transitionRouteGroups.flatMap (fun ref =>
            match resolveTrg g fid ref with
            | some trg => trg.transitionRoutes
            | none => [])
        ++ p.eventHandlers
        ++ p.formParameters.flatMap (fun param => param.repromptEventHandlers)

/-- The per-flow duplicate guard of `detect_loops_rec`: append the finding
unless an identical message string was already recorded in the shared list. -/
def appendIfNewMsg (g : Graph) (fid curName : String) (issues : List Finding) (msg : String) :
    List Finding :=
  if msg ∈ issues.map Finding.issue then issues else issues ++ [mkLoopIssue g fid curName msg]

/-- Processing of one outgoing route in the body of `detect_loops_rec`.
`R` is the recursive continuation (`detect_loops_rec` one level deeper),
`npath` the path including the current page, `tc` the accumulated
transition count before this edge. -/
def loopRouteStep (g : Graph) (fid : String) (threshold : Nat)
    (R : String → String → Nat → List Finding → List Finding)
    (curName : String) (tc : Nat) (npath : List String)
    (issues : List Finding) (route : Route) : List Finding :=
  if isTruthy route.targetFlow then issues
  else if isTruthy route.targetPage then
    match resolvePageId g fid route.targetPage with
    | none => issues
    | some tid =>
      if isInputPage g fid tid = true ∨ threshold ≤ tc + edgeCost g fid tid then
        if threshold ≤ tc + edgeCost g fid tid then
          appendIfNewMsg g fid curName issues
            (possibleLoopMsg npath (getPageDisplayName g fid tid) (tc + edgeCost g fid tid))
        else issues
      else
        if getPageDisplayName g fid tid ∈ npath then
          appendIfNewMsg g fid curName issues
            (cycleLoopMsg npath (getPageDisplayName g fid tid))
        else R tid (getPageDisplayName g fid tid) (tc + edgeCost g fid tid) issues
  else issues

/-- Fuelled version of `OfflineFlowGraph.detect_loops_rec`.  Each recursive
step strictly increases the transition count and only happens below the
threshold, so fuel `threshold + 1` is sufficient at a zero count (see the
fuel-stability theorem). -/
def detectLoopsRecF (g : Graph) (fid : String) (threshold : Nat) :
    Nat → String → String → Nat → List String → List Finding → List Finding
  | 0, _, _, _, _, issues => issues
  | fuel + 1, curId, curName, tc, path, issues =>
    (dfsRoutes g fid curId).foldl
      (loopRouteStep g fid threshold
        (fun tid tname newCount is =>
          detectLoopsRecF g fid threshold fuel tid tname newCount (path ++ [curName]) is)
        curName tc (path ++ [curName]))
      issues

/-- Seed list of `detect_possible_loops` for one flow: the `"Start"` address
plus every stored page classified input-accepting by `is_input_page`. -/
def loopSeeds (g : Graph) (fid : String) : List (String × String) :=
  ("Start", "Start") :: (g.pagesOf fid).filterMap (fun pp =>
    if isInputPage g fid pp.1 then some (pp.1, pp.2.displayName.getD pp.1) else none)

/-- `OfflineFlowGraph.detect_possible_loops`: one shared issue list threaded
through every flow and every seed. -/
def detectPossibleLoops (g : Graph) (threshold : Nat := 25) : List Finding :=
  g.flows.foldl (fun issues fp =>
    (loopSeeds g fp.1).foldl (fun issues seed =>
      detectLoopsRecF g fp.1 threshold (threshold + 1) seed.1 seed.2 0 [] issues) issues) []

/-- One flow subdirectory of `<root>/flows` as seen by `load_agent`:
directory name, the flow document `<dirName>.json` when present, and the
directory listings of `pages/` and `transitionRouteGroups/` as
(filename, parsed document) pairs. -/
structure FlowFolder where
  dirName : String
  flowDoc : Option Flow := none
  pageFiles : List (String × Page) := []
  trgFiles : List (String × TRG) := []
deriving DecidableEq

/-- The agent directory handed to `OfflineFlowGraph`: `none` when the
`flows` subdirectory does not exist. -/
structure AgentDir where
  flowsDir : Option (List FlowFolder) := none
deriving DecidableEq

/-- Loading of one flow subdirectory by `load_agent`: skipped entirely when
the flow document named after the directory is absent. -/
def loadFolder (g : Graph) (folder : FlowFolder) : Graph :=
  match folder.flowDoc with
  | none => g
  | some fl =>
    let fid := fl.name.getD folder.dirName
    let pages := folder.pageFiles.foldl (fun acc pf =>
        if strEndsWith pf.1 ".json" then assocInsert (pf.2.name.getD pf.1) pf.2 acc else acc) []
    let trgs := folder.trgFiles.foldl (fun acc tf =>
        if strEndsWith tf.1 ".json" then assocInsert (tf.2.name.getD tf.1) tf.2 acc else acc) []
    { flows := assocInsert fid fl g.flows,
      flowNameMap := assocInsert (fl.displayName.getD folder.dirName) fid g.flowNameMap,
      pages := assocInsert fid pages g.pages,
      trgs := assocInsert fid trgs g.trgs }

/-- `OfflineFlowGraph.load_agent`. -/
def loadAgent (d : AgentDir) : Graph :=
  match d.flowsDir with
  | none => {}
  | some folders => folders.foldl loadFolder {}

/-- Page-id keys of one flow's pages dict. -/
def pageKeys (g : Graph) (fid : String) : List String := (g.pagesOf fid).map Prod.fst

/-- Number of distinct page keys not yet visited; the BFS measure component. -/
def unvisitedCount (g : Graph) (fid : String) (v : List String) : Nat :=
  (pageKeys g fid).dedup.countP (fun k => decide (k ∉ v))

/-- Shape of every finding emitted by the loop detector: its page tag is the
last entry of the path prefix of its own message, i.e. the display name of
the page the triggering edge leaves from. -/
def LoopShape (e : Finding) : Prop :=
  ∃ pth tgt, pth.getLast? = some e.page ∧
    (e.issue = cycleLoopMsg pth tgt ∨ ∃ n : Nat, e.issue = possibleLoopMsg pth tgt n)

/-- A page with one form parameter and no event handlers (the
handler-completeness scenario of the spec). -/
def pageC1 : Page := { displayName := some "P", formParameters := [{}] }

/-- A one-flow graph holding `pageC1`. -/
def gC1 : Graph :=
  { flows := [("f", { displayName := some "F" })], pages := [("f", [("p", pageC1)])] }

/-- A flow whose start routes unconditionally to page `"A"`. -/
def flowToA (d : String) : Flow :=
  { displayName := some d, transitionRoutes := [{ targetPage := some "A" }] }

/-- A non-input page with a single route to the named target page. -/
def pageHop (d t : String) : Page :=
  { displayName := some d, transitionRoutes := [{ targetPage := some t }] }

/-- Start goes to `A`, and `A` loops to itself; no input pages. -/
def gC3 : Graph :=
  { flows := [("f", flowToA "F")], pages := [("f", [("A", pageHop "A" "A")])] }

/-- The self-loop route of `gC3`. -/
def routeToA : Route := { targetPage := some "A" }

/-- Two structurally identical flows, each producing the same loop message. -/
def gC4 : Graph :=
  { flows := [("f1", flowToA "F1"), ("f2", flowToA "F2")],
    pages := [("f1", [("A", pageHop "A" "A")]), ("f2", [("A", pageHop "A" "A")])] }

/-- Only the second flow of `gC4`. -/
def gC4second : Graph :=
  { flows := [("f2", flowToA "F2")], pages := [("f2", [("A", pageHop "A" "A")])] }

/-- Start goes to `A`, `A` to `B`, and `B` back to `A`; no input pages. -/
def gC5 : Graph :=
  { flows := [("f", flowToA "F")],
    pages := [("f", [("A", pageHop "A" "B"), ("B", pageHop "B" "A")])] }

/-- The single finding the loop detector emits on `gC5`. -/
def eC5 : Finding :=
  { flow := "F", page := "B", issue := "Infinite Loop Detected: Start -> A -> B -> A",
    severity := Severity.Warning }

/-- A page with no form and no intent routes of its own, referencing a
route group whose routes carry an intent. -/
def pageC6 : Page := { displayName := some "P", transitionRouteGroups := ["trg1"] }

/-- The intent-bearing route group referenced by `pageC6`. -/
def trgC6 : TRG := { name := some "trg1", transitionRoutes := [{ intent := some "i" }] }

/-- A one-flow graph holding `pageC6` and `trgC6`. -/
def gC6 : Graph :=
  { flows := [("f", { displayName := some "F" })], pages := [("f", [("p", pageC6)])],
    trgs := [("f", [("trg1", trgC6)])] }

/-- A non-input page with only a conditional (non-`"true"`) outgoing route. -/
def pageC7 : Page :=
  { displayName := some "P",
    transitionRoutes := [{ condition := some "$session.params.x = 1", targetPage := some "q" }] }

/-- A route carrying both a target flow and a target page reference. -/
def routeC8 : Route := { targetPage := some "A", targetFlow := some "other" }

/-- A flow whose only start route is `routeC8`. -/
def flowC8 : Flow := { displayName := some "F", transitionRoutes := [routeC8] }

/-- A one-flow graph where page `"A"` is referenced only by `routeC8`. -/
def gC8 : Graph := { flows := [("f", flowC8)], pages := [("f", [("A", { displayName := some "A" })])] }

/-- A flow with no outgoing routes at all. -/
def flowW2 : Flow := { displayName := some "F" }

/-- A one-flow graph with a single page that no route reaches. -/
def gW2 : Graph := { flows := [("f", flowW2)], pages := [("f", [("p", { displayName := some "P" })])] }

/-- A flow subdirectory with no flow document named after it. -/
def folderW : FlowFolder := { dirName := "x" }

/-- A left fold preserves any property that every step preserves. -/
theorem foldl_pres {α β : Type} (P : β → Prop) :
    ∀ (l : List α) (f : β → α → β) (b : β), P b →
      (∀ x a, a ∈ l → P x → P (f x a)) → P (l.foldl f b)
  | [], _, _, hb, _ => hb
  | a :: as, f, b, hb, hf => by
    simp only [List.foldl_cons]
    exact foldl_pres P as f (f b a) (hf b a (List.mem_cons_self a as) hb)
      (fun x a' ha' hx => hf x a' (List.mem_cons_of_mem a ha') hx)

/-- Two left folds agree when their step functions agree on the list. -/
theorem foldl_ext {α β : Type} :
    ∀ (l : List α) (f h : β → α → β) (b : β),
      (∀ a ∈ l, ∀ x, f x a = h x a) → l.foldl f b = l.foldl h b
  | [], _, _, _, _ => rfl
  | a :: as, f, h, b, H => by
    simp only [List.foldl_cons]
    rw [H a (List.mem_cons_self a as) b]
    exact foldl_ext as f h (h b a) (fun a' ha' x => H a' (List.mem_cons_of_mem a ha') x)

/-- A successful association lookup means the key occurs among the keys. -/
theorem alookup_isSome_mem {α : Type} :
    ∀ {l : List (String × α)} {k : String}, (alookup l k).isSome → k ∈ l.map Prod.fst := by
  intro l
  induction l with
  | nil => intro k h; simp [alookup] at h
  | cons p rest ih =>
    intro k h
    obtain ⟨k', v⟩ := p
    simp only [alookup] at h
    by_cases hk : k' = k
    · simp [hk]
    · rw [if_neg hk] at h
      simp [ih h]

/-- Every page id produced by `resolve_page_id` is a key of the pages dict. -/
theorem resolvePageId_mem {g : Graph} {fid : String} {o : Option String} {pid : String}
    (h : resolvePageId g fid o = some pid) : pid ∈ pageKeys g fid := by
  cases o with
  | none => simp [resolvePageId] at h
  | some r =>
    simp only [resolvePageId] at h
    split at h
    · exact absurd h (by simp)
    · split at h
      · rename_i hsome
        cases h
        exact alookup_isSome_mem hsome
      · obtain ⟨it, hmem, hf⟩ := List.exists_of_findSome?_eq_some h
        split at hf
        · cases hf
          exact List.mem_map_of_mem Prod.fst hmem
        · exact absurd hf (by simp)

/-- One BFS edge step either leaves the state unchanged or enqueues a single
page key not yet visited. -/
theorem bfsStep_cases (g : Graph) (fid : String) (v q : List String) (route : Route) :
    bfsStep g fid (v, q) route = (v, q) ∨
    ∃ pid, pid ∈ pageKeys g fid ∧ pid ∉ v ∧
      bfsStep g fid (v, q) route = (pid :: v, q ++ [pid]) := by
  rw [bfsStep]
  split
  · split
    · rename_i pid hres
      split
      · exact Or.inl rfl
      · exact Or.inr ⟨pid, resolvePageId_mem hres, by assumption, rfl⟩
    · exact Or.inl rfl
  · exact Or.inl rfl

/-- Visiting a fresh page key decreases the unvisited count by exactly one. -/
theorem unvisitedCount_cons {g : Graph} {fid : String} {v : List String} {pid : String}
    (hk : pid ∈ pageKeys g fid) (hv : pid ∉ v) :
    unvisitedCount g fid v = unvisitedCount g fid (pid :: v) + 1 := by
  unfold unvisitedCount
  have hd : pid ∈ (pageKeys g fid).dedup := List.mem_dedup.mpr hk
  have hperm := List.perm_cons_erase hd
  rw [List.Perm.countP_eq (fun k => decide (k ∉ v)) hperm,
      List.Perm.countP_eq (fun k => decide (k ∉ pid :: v)) hperm]
  rw [List.countP_cons, List.countP_cons]
  have h3 : List.countP (fun k => decide (k ∉ pid :: v)) ((pageKeys g fid).dedup.erase pid)
      = List.countP (fun k => decide (k ∉ v)) ((pageKeys g fid).dedup.erase pid) := by
    apply List.countP_congr
    intro k hke
    have hnd := List.nodup_dedup (pageKeys g fid)
    have hne : k ≠ pid := ((List.Nodup.mem_erase_iff hnd).mp hke).1
    simp [hne]
  rw [h3]
  simp [hv]

/-- Folding the BFS edge steps over any transition list preserves the sum of
queue length and unvisited count. -/
theorem bfs_fold_measure (g : Graph) (fid : String) :
    ∀ (ts : List Route) (v q : List String),
      (ts.foldl (bfsStep g fid) (v, q)).2.length
          + unvisitedCount g fid (ts.foldl (bfsStep g fid) (v, q)).1
        = q.length + unvisitedCount g fid v := by
  intro ts
  induction ts with
  | nil => intro v q; rfl
  | cons r rs ih =>
    intro v q
    simp only [List.foldl_cons]
    rcases bfsStep_cases g fid v q r with h | ⟨pid, hk, hv, h⟩
    · rw [h]
      exact ih v q
    · rw [h]
      rw [ih (pid :: v) (q ++ [pid])]
      have h3 := unvisitedCount_cons hk hv
      simp only [List.length_append, List.length_cons, List.length_nil]
      omega

/-- The BFS worklist loop is insensitive to the fuel once the fuel covers
the measure `queue length + unvisited pages`: the loop runs for exactly that
many iterations, so the source's unbounded `while queue:` loop and the
fuelled embedding agree. -/
theorem bfsLoop_stable (g : Graph) (fid : String) :
    ∀ (f₁ f₂ : Nat) (q v : List String),
      q.length + unvisitedCount g fid v ≤ f₁ →
      q.length + unvisitedCount g fid v ≤ f₂ →
      bfsLoop g fid f₁ q v = bfsLoop g fid f₂ q v := by
  intro f₁
  induction f₁ with
  | zero =>
    intro f₂ q v h1 _
    have hq : q = [] := by
      cases q with
      | nil => rfl
      | cons a as => simp at h1
    subst hq
    cases f₂ <;> rfl
  | succ n ih =>
    intro f₂ q v h1 h2
    cases q with
    | nil => cases f₂ <;> rfl
    | cons cur rest =>
      cases f₂ with
      | zero => simp at h2
      | succ m =>
        simp only [bfsLoop]
        have hm := bfs_fold_measure g fid (bfsTransitions g fid cur) v []
        apply ih
        · simp only [List.length_append]
          simp only [List.length_cons] at h1
          simp only [List.length_nil] at hm
          omega
        · simp only [List.length_append]
          simp only [List.length_cons] at h2
          simp only [List.length_nil] at hm
          omega

/-- Two instantiations of the per-route loop step agree whenever their
recursive continuations agree below the threshold. -/
theorem loopRouteStep_congr (g : Graph) (fid : String) (t : Nat)
    (R₁ R₂ : String → String → Nat → List Finding → List Finding)
    (curName : String) (tc : Nat) (npath : List String)
    (h : ∀ tid tname nc x, tc + 1 ≤ nc → nc + 1 ≤ t → R₁ tid tname nc x = R₂ tid tname nc x) :
    ∀ issues route, loopRouteStep g fid t R₁ curName tc npath issues route
      = loopRouteStep g fid t R₂ curName tc npath issues route := by
  intro issues route
  rw [loopRouteStep, loopRouteStep]
  split
  · rfl
  split
  · split
    · rfl
    · rename_i tid hres
      split
      · rfl
      · rename_i hcond
        split
        · rfl
        · apply h
          · have : 1 ≤ edgeCost g fid tid := by
              rw [edgeCost]; split <;> omega
            omega
          · push_neg at hcond
            omega
  · rfl

/-- The per-route loop step preserves any property closed under guarded
appends of loop findings and under the recursive continuation. -/
theorem loopRouteStep_pres (g : Graph) (fid : String) (t : Nat)
    (R : String → String → Nat → List Finding → List Finding)
    (curName : String) (tc : Nat) (npath : List String)
    (P : List Finding → Prop)
    (happ : ∀ issues msg, msg ∉ issues.map Finding.issue →
        ((∃ tname, msg = cycleLoopMsg npath tname) ∨
         (∃ tname n, msg = possibleLoopMsg npath tname n)) →
        P issues → P (issues ++ [mkLoopIssue g fid curName msg]))
    (hrec : ∀ tid tname nc issues, P issues → P (R tid tname nc issues)) :
    ∀ issues route, P issues → P (loopRouteStep g fid t R curName tc npath issues route) := by
  intro issues route hP
  rw [loopRouteStep]
  split
  · exact hP
  split
  · split
    · exact hP
    · rename_i tid hres
      split
      · split
        · rw [appendIfNewMsg]
          split
          · exact hP
          · exact happ issues _ (by assumption) (Or.inr ⟨_, _, rfl⟩) hP
        · exact hP
      · split
        · rw [appendIfNewMsg]
          split
          · exact hP
          · exact happ issues _ (by assumption) (Or.inl ⟨_, rfl⟩) hP
        · exact hrec tid _ _ issues hP
  · exact hP

/-- Fuel stability of the loop recursion: any two fuels that dominate
`threshold - transition_count` produce the same result, because each
recursive call strictly increases the count and only happens strictly below
the threshold.  Hence the source's unbounded recursion terminates and agrees
with the fuelled embedding at fuel `threshold + 1`. -/
theorem detectLoopsRecF_fuel_stable (g : Graph) (fid : String) (t : Nat) :
    ∀ (f₁ f₂ : Nat) (cid cname : String) (tc : Nat) (path : List String) (issues : List Finding),
      1 ≤ f₁ → 1 ≤ f₂ → t + 1 ≤ tc + f₁ → t + 1 ≤ tc + f₂ →
      detectLoopsRecF g fid t f₁ cid cname tc path issues
        = detectLoopsRecF g fid t f₂ cid cname tc path issues := by
  intro f₁
  induction f₁ with
  | zero => intro f₂ cid cname tc path issues h1; omega
  | succ n ih =>
    intro f₂ cid cname tc path issues _ h2 h3 h4
    cases f₂ with
    | zero => omega
    | succ m =>
      simp only [detectLoopsRecF]
      apply foldl_ext
      intro route _ x
      apply loopRouteStep_congr
      intro tid tname nc y hlo hhi
      exact ih m tid tname nc (path ++ [cname]) y (by omega) (by omega) (by omega) (by omega)

/-- The loop recursion keeps the recorded message strings duplicate-free:
every append is guarded by a membership test on the shared issue list. -/
theorem detectLoopsRecF_msgs_nodup (g : Graph) (fid : String) (t : Nat) :
    ∀ (fuel : Nat) (cid cname : String) (tc : Nat) (path : List String) (issues : List Finding),
      (issues.map Finding.issue).Nodup →
      ((detectLoopsRecF g fid t fuel cid cname tc path issues).map Finding.issue).Nodup := by
  intro fuel
  induction fuel with
  | zero =>
    intro cid cname tc path issues h
    simpa [detectLoopsRecF] using h
  | succ n ih =>
    intro cid cname tc path issues h
    simp only [detectLoopsRecF]
    refine foldl_pres (fun is : List Finding => (is.map Finding.issue).Nodup) _ _ _ h ?_
    intro x route _ hx
    refine loopRouteStep_pres g fid t _ cname tc (path ++ [cname])
      (fun is : List Finding => (is.map Finding.issue).Nodup) ?_ ?_ x route hx
    · intro is msg hfresh _ hP
      rw [List.map_append]
      rw [List.nodup_append]
      refine ⟨hP, by simp, ?_⟩
      intro a ha hb
      simp [mkLoopIssue] at hb
      subst hb
      exact hfresh ha
    · intro tid tname nc is hP
      exact ih tid tname nc (path ++ [cname]) is hP

/-- The loop recursion only appends findings, and every appended finding is
tagged with the page its triggering edge leaves from (the last entry of the
path prefix of its message). -/
theorem detectLoopsRecF_shape (g : Graph) (fid : String) (t : Nat) :
    ∀ (fuel : Nat) (cid cname : String) (tc : Nat) (path : List String) (issues : List Finding),
      ∃ extra, detectLoopsRecF g fid t fuel cid cname tc path issues = issues ++ extra
        ∧ ∀ e ∈ extra, LoopShape e := by
  intro fuel
  induction fuel with
  | zero =>
    intro cid cname tc path issues
    exact ⟨[], by simp [detectLoopsRecF], by simp⟩
  | succ n ih =>
    intro cid cname tc path issues
    simp only [detectLoopsRecF]
    refine foldl_pres
      (fun is : List Finding => ∃ ex, is = issues ++ ex ∧ ∀ e ∈ ex, LoopShape e)
      _ _ _ ⟨[], by simp, by simp⟩ ?_
    intro x route _ hx
    refine loopRouteStep_pres g fid t _ cname tc (path ++ [cname])
      (fun is : List Finding => ∃ ex, is = issues ++ ex ∧ ∀ e ∈ ex, LoopShape e) ?_ ?_ x route hx
    · intro is msg _ hok hP
      obtain ⟨ex, hex, hsh⟩ := hP
      refine ⟨ex ++ [mkLoopIssue g fid cname msg], by rw [hex, List.append_assoc], ?_⟩
      intro e he
      rcases List.mem_append.mp he with he | he
      · exact hsh e he
      · have he' : e = mkLoopIssue g fid cname msg := by simpa using he
        subst he'
        rcases hok with ⟨tname, rfl⟩ | ⟨tname, nc, rfl⟩
        · exact ⟨path ++ [cname], tname, by simp [mkLoopIssue, List.getLast?_concat],
            Or.inl (by simp [mkLoopIssue])⟩
        · exact ⟨path ++ [cname], tname, by simp [mkLoopIssue, List.getLast?_concat],
            Or.inr ⟨nc, by simp [mkLoopIssue]⟩⟩
    · intro tid tname nc is hP
      obtain ⟨ex, hex, hsh⟩ := hP
      obtain ⟨ex', hex', hsh'⟩ := ih tid tname nc (path ++ [cname]) is
      refine ⟨ex ++ ex', by rw [hex', hex, List.append_assoc], ?_⟩
      intro e he
      rcases List.mem_append.mp he with he | he
      · exact hsh e he
      · exact hsh' e he

/-- Message strings are globally duplicate-free across the whole run of the
loop detector: the guard consults the one shared issue list. -/
theorem detectPossibleLoops_msgs_nodup (g : Graph) (t : Nat) :
    ((detectPossibleLoops g t).map Finding.issue).Nodup := by
  rw [detectPossibleLoops]
  refine foldl_pres (fun is : List Finding => (is.map Finding.issue).Nodup) _ _ _ (by simp) ?_
  intro x fp _ hx
  refine foldl_pres (fun is : List Finding => (is.map Finding.issue).Nodup) _ _ _ hx ?_
  intro y seed _ hy
  exact detectLoopsRecF_msgs_nodup g fp.1 t (t + 1) seed.1 seed.2 0 [] y hy

/-- Every finding of the loop detector has the edge-source page tag shape. -/
theorem detectPossibleLoops_shape (g : Graph) (t : Nat) :
    ∀ e ∈ detectPossibleLoops g t, LoopShape e := by
  rw [detectPossibleLoops]
  refine foldl_pres (fun is : List Finding => ∀ e ∈ is, LoopShape e) _ _ _ (by simp) ?_
  intro x fp _ hx
  refine foldl_pres (fun is : List Finding => ∀ e ∈ is, LoopShape e) _ _ _ hx ?_
  intro y seed _ hy
  obtain ⟨ex, hex, hsh⟩ := detectLoopsRecF_shape g fp.1 t (t + 1) seed.1 seed.2 0 [] y
  rw [hex]
  intro e he
  rcases List.mem_append.mp he with he | he
  · exact hy e he
  · exact hsh e he

/-- C1 counterexample: a page with one form parameter and no event handlers
makes the handler-completeness pass emit exactly one finding, whose single
message names both deficiencies, not the two separate findings the claim
requires. -/
theorem C1_two_findings_counterexample :
    checkMissingEventHandlers gC1
      = [{ flow := "F", page := "P", issue := "Missing Event Handlers: no-input, no-match",
           severity := Severity.Warning }]
    ∧ (checkMissingEventHandlers gC1).length ≠ 2 :=
  ⟨by decide, by decide⟩

/-- C1 (amended): for every input-accepting page missing both fallback
categories the handler-completeness pass emits one `Warning` finding whose
message names both deficiencies (`"Missing Event Handlers: no-input,
no-match"`); a page generates at most one finding, and the pass is the
per-page function folded over all flows and pages. -/
theorem C1_combined_finding_amended (flowDisp pid : String) (p : Page) (g : Graph)
    (hin : pageAcceptsInput p = true)
    (hni : eventsContain (mehEvents p) "no-input" = false)
    (hnm : eventsContain (mehEvents p) "no-match" = false) :
    mehPageIssues flowDisp pid p
      = [{ flow := flowDisp, page := p.displayName.getD pid,
           issue := "Missing Event Handlers: no-input, no-match",
           severity := Severity.Warning }]
    ∧ (∀ (fd pid' : String) (q : Page), (mehPageIssues fd pid' q).length ≤ 1)
    ∧ checkMissingEventHandlers g
      = g.flows.flatMap (fun fp => (g.pagesOf fp.1).flatMap (fun pp =>
          mehPageIssues (fp.2.displayName.getD fp.1) pp.1 pp.2)) := by
  refine ⟨?_, ?_, rfl⟩
  · simp only [mehPageIssues, hin, hni, hnm]
    rfl
  · intro fd pid' q
    simp only [mehPageIssues]
    split
    · split
      · simp
      · simp
    · simp

/-- C1 witness: the amended statement instantiated at the concrete
form-bearing page of the scenario. -/
theorem C1_combined_finding_witness :
    pageAcceptsInput pageC1 = true
    ∧ eventsContain (mehEvents pageC1) "no-input" = false
    ∧ eventsContain (mehEvents pageC1) "no-match" = false
    ∧ mehPageIssues "F" "p" pageC1
        = [{ flow := "F", page := "P", issue := "Missing Event Handlers: no-input, no-match",
             severity := Severity.Warning }] :=
  ⟨by decide, by decide, by decide,
    (C1_combined_finding_amended "F" "p" pageC1 gC1 (by decide) (by decide) (by decide)).1⟩

/-- C2: per flow, the reachability pass emits exactly one `Warning` finding
per page key never visited by the BFS from `"Start"` and none for visited
pages: its finding list is the map of the fixed finding over the unvisited
keys, its length counts the unvisited keys, and a flow with zero pages
yields no findings; the global pass is the per-flow pass folded over flows. -/
theorem C2_unreachable_confirmed (g : Graph) (fid : String) (fl : Flow)
    (h : ((g.pagesOf fid).map Prod.fst).Nodup) :
    unreachableIssuesForFlow g fid fl
      = (((g.pagesOf fid).map Prod.fst).filter
          (fun pid => decide (pid ∉ findReachablePages g fid))).map
          (fun pid =>
            { flow := fl.displayName.getD fid, page := getPageDisplayName g fid pid,
              issue := "Unreachable Page", severity := Severity.Warning })
    ∧ (unreachableIssuesForFlow g fid fl).length
        = ((g.pagesOf fid).map Prod.fst).countP
            (fun pid => decide (pid ∉ findReachablePages g fid))
    ∧ (∀ e ∈ unreachableIssuesForFlow g fid fl,
        e.issue = "Unreachable Page" ∧ e.severity = Severity.Warning)
    ∧ (g.pagesOf fid = [] → unreachableIssuesForFlow g fid fl = [])
    ∧ checkUnreachablePages g
      = g.flows.flatMap (fun fp => unreachableIssuesForFlow g fp.1 fp.2) := by
  have hd : ((g.pagesOf fid).map Prod.fst).dedup = (g.pagesOf fid).map Prod.fst :=
    List.dedup_eq_self.mpr h
  have h1 : unreachableIssuesForFlow g fid fl
      = (((g.pagesOf fid).map Prod.fst).filter
          (fun pid => decide (pid ∉ findReachablePages g fid))).map
          (fun pid =>
            { flow := fl.displayName.getD fid, page := getPageDisplayName g fid pid,
              issue := "Unreachable Page", severity := Severity.Warning }) := by
    simp only [unreachableIssuesForFlow, hd]
  refine ⟨h1, ?_, ?_, ?_, rfl⟩
  · rw [h1, List.length_map, ← List.countP_eq_length_filter]
  · intro e he
    rw [h1] at he
    obtain ⟨pid, _, rfl⟩ := List.mem_map.mp he
    exact ⟨rfl, rfl⟩
  · intro h0
    simp only [unreachableIssuesForFlow, h0]
    rfl

/-- C2 witness: the claim instantiated at a one-page flow with no routes;
the single page is unreachable and produces exactly one finding. -/
theorem C2_unreachable_witness :
    ((gW2.pagesOf "f").map Prod.fst).Nodup
    ∧ unreachableIssuesForFlow gW2 "f" flowW2
        = [{ flow := "F", page := "P", issue := "Unreachable Page",
             severity := Severity.Warning }] := by
  refine ⟨by decide, ?_⟩
  rw [(C2_unreachable_confirmed gW2 "f" flowW2 (by decide)).1]
  decide

/-- C3 counterexample: in `gC3` with threshold 2, at the self-edge of page
`A` the target's display name `A` is already on the current path
`[Start, A]` and the accumulated cost 2 reaches the threshold, yet the run
emits the `"Possible Infinite Loop"` message, not `"Infinite Loop
Detected"`: the threshold check, not the cycle check, takes precedence. -/
theorem C3_precedence_counterexample :
    getPageDisplayName gC3 "f" "A" ∈ (["Start", "A"] : List String)
    ∧ 2 ≤ 1 + edgeCost gC3 "f" "A"
    ∧ loopRouteStep gC3 "f" 2
        (fun tid tname nc is => detectLoopsRecF gC3 "f" 2 1 tid tname nc ["Start", "A"] is)
        "A" 1 ["Start", "A"] [] routeToA
      = [{ flow := "F", page := "A",
           issue := "Possible Infinite Loop (Depth 2): Start -> A -> A",
           severity := Severity.Warning }]
    ∧ detectPossibleLoops gC3 2
      = [{ flow := "F", page := "A",
           issue := "Possible Infinite Loop (Depth 2): Start -> A -> A",
           severity := Severity.Warning }] :=
  ⟨by decide, by decide, by decide, by decide⟩

/-- C3 (amended): the threshold check takes precedence over the cycle
check.  For every edge with a resolvable intra-flow target: when the
accumulated cost reaches the threshold the `"Possible Infinite Loop"`
finding is emitted (subject to the duplicate guard) even if the target is
on the path or input-accepting; the `"Infinite Loop Detected"` finding is
emitted only when the target is not input-accepting, the cost stays below
the threshold, and the target's display name is already on the path; and an
input-accepting target below the threshold emits nothing. -/
theorem C3_precedence_amended (g : Graph) (fid : String) (t : Nat)
    (R : String → String → Nat → List Finding → List Finding)
    (curName : String) (tc : Nat) (npath : List String)
    (issues : List Finding) (route : Route) (tid : String)
    (hflow : isTruthy route.targetFlow = false)
    (hpage : isTruthy route.targetPage = true)
    (hres : resolvePageId g fid route.targetPage = some tid) :
    (t ≤ tc + edgeCost g fid tid →
      loopRouteStep g fid t R curName tc npath issues route
        = appendIfNewMsg g fid curName issues
            (possibleLoopMsg npath (getPageDisplayName g fid tid) (tc + edgeCost g fid tid)))
    ∧ (isInputPage g fid tid = false → tc + edgeCost g fid tid < t →
        getPageDisplayName g fid tid ∈ npath →
      loopRouteStep g fid t R curName tc npath issues route
        = appendIfNewMsg g fid curName issues
            (cycleLoopMsg npath (getPageDisplayName g fid tid)))
    ∧ (isInputPage g fid tid = true → tc + edgeCost g fid tid < t →
      loopRouteStep g fid t R curName tc npath issues route = issues) := by
  refine ⟨?_, ?_, ?_⟩
  · intro h
    simp [loopRouteStep, hflow, hpage, hres, h]
  · intro h1 h2 h3
    simp [loopRouteStep, hflow, hpage, hres, h1, h3, Nat.not_le.mpr h2]
  · intro h1 h2
    simp [loopRouteStep, hflow, hpage, hres, h1, Nat.not_le.mpr h2]

/-- C3 witness: the amended threshold branch instantiated at the self-edge
of `gC3`. -/
theorem C3_precedence_witness :
    isTruthy routeToA.targetFlow = false
    ∧ isTruthy routeToA.targetPage = true
    ∧ resolvePageId gC3 "f" routeToA.targetPage = some "A"
    ∧ 2 ≤ 1 + edgeCost gC3 "f" "A"
    ∧ loopRouteStep gC3 "f" 2 (fun _ _ _ is => is) "A" 1 ["Start", "A"] [] routeToA
        = appendIfNewMsg gC3 "f" "A" []
            (possibleLoopMsg ["Start", "A"] (getPageDisplayName gC3 "f" "A")
              (1 + edgeCost gC3 "f" "A")) :=
  ⟨by decide, by decide, by decide, by decide,
    (C3_precedence_amended gC3 "f" 2 (fun _ _ _ is => is) "A" 1 ["Start", "A"] [] routeToA "A"
      (by decide) (by decide) (by decide)).1 (by decide)⟩

/-- C4 counterexample: the two flows of `gC4` are structurally identical and
each would record the same message on its own, but the combined run records
it only once — the second flow's finding is suppressed by the first flow's,
so deduplication is not scoped to a single flow. -/
theorem C4_dedup_counterexample :
    detectPossibleLoops gC4 2
      = [{ flow := "F1", page := "A",
           issue := "Possible Infinite Loop (Depth 2): Start -> A -> A",
           severity := Severity.Warning }]
    ∧ detectPossibleLoops gC4second 2
      = [{ flow := "F2", page := "A",
           issue := "Possible Infinite Loop (Depth 2): Start -> A -> A",
           severity := Severity.Warning }]
    ∧ (detectPossibleLoops gC4 2).length ≠ 2 :=
  ⟨by decide, by decide, by decide⟩

/-- C4 (amended): loop-finding deduplication is global to the whole run,
not per flow: the message strings of the findings of `detect_possible_loops`
are pairwise distinct across all flows and seeds, and in the two-flow graph
`gC4` the identical message is recorded once, for the first flow only. -/
theorem C4_dedup_amended :
    (∀ (g : Graph) (t : Nat), ((detectPossibleLoops g t).map Finding.issue).Nodup)
    ∧ detectPossibleLoops gC4 2
      = [{ flow := "F1", page := "A",
           issue := "Possible Infinite Loop (Depth 2): Start -> A -> A",
           severity := Severity.Warning }] :=
  ⟨detectPossibleLoops_msgs_nodup, by decide⟩

/-- C5 counterexample: in `gC5` the only seed is `Start`, yet the single
cycle finding is tagged with page `B` — the page the closing edge leaves
from — not with the seed's display name. -/
theorem C5_seed_tag_counterexample :
    detectPossibleLoops gC5 25 = [eC5]
    ∧ loopSeeds gC5 "f" = [("Start", "Start")]
    ∧ eC5.page = "B"
    ∧ eC5.page ≠ "Start" :=
  ⟨by decide, by decide, rfl, by decide⟩

/-- C5 (amended): every finding of the loop detector is tagged with the
display name of the page its triggering edge leaves from: the finding's
page field is the last entry of the path prefix of its own message. -/
theorem C5_edge_source_tag_amended (g : Graph) (t : Nat) (e : Finding)
    (he : e ∈ detectPossibleLoops g t) : LoopShape e :=
  detectPossibleLoops_shape g t e he

/-- C5 witness: the amended statement at the concrete finding of `gC5`. -/
theorem C5_edge_source_tag_witness :
    eC5 ∈ detectPossibleLoops gC5 25 ∧ LoopShape eC5 :=
  ⟨by decide, C5_edge_source_tag_amended gC5 25 eC5 (by decide)⟩

/-- C6 counterexample: page `p` of `gC6` has no form and no intent-bearing
route of its own, but references an intent-bearing route group; it is a
loop-detection seed while the handler-completeness predicate classifies it
as not input-accepting, so the two predicates do not coincide. -/
theorem C6_predicate_counterexample :
    alookup (gC6.pagesOf "f") "p" = some pageC6
    ∧ isInputPage gC6 "f" "p" = true
    ∧ ("p", "P") ∈ loopSeeds gC6 "f"
    ∧ pageAcceptsInput pageC6 = false :=
  ⟨by decide, by decide, by decide, by decide⟩

/-- C6 (amended): for every stored page, the loop-detection seed predicate
is the handler-completeness predicate extended by intent-bearing routes of
the page's resolved route groups; in particular the two coincide whenever
no resolved route group of the page has an intent-bearing route, and the
seed list is `"Start"` plus the pages satisfying the seed predicate. -/
theorem C6_predicate_amended (g : Graph) (fid pid : String) (p : Page)
    (hpid : pid ≠ "Start") (hp : alookup (g.pagesOf fid) pid = some p) :
    isInputPage g fid pid
      = (pageAcceptsInput p || trgRoutesHaveIntent g fid p.transitionRouteGroups)
    ∧ (trgRoutesHaveIntent g fid p.transitionRouteGroups = false →
        isInputPage g fid pid = pageAcceptsInput p)
    ∧ loopSeeds g fid
      = ("Start", "Start") :: (g.pagesOf fid).filterMap (fun pp =>
          if isInputPage g fid pp.1 then some (pp.1, pp.2.displayName.getD pp.1) else none) := by
  have h1 : isInputPage g fid pid
      = if !p.formParameters.isEmpty then true
        else hasIntentRoute p.transitionRoutes
          || trgRoutesHaveIntent g fid p.transitionRouteGroups := by
    simp only [isInputPage, if_neg hpid, hp]
  refine ⟨?_, ?_, rfl⟩
  · rw [h1, pageAcceptsInput]
    cases hi : hasIntentRoute p.transitionRoutes <;>
      cases hf : p.formParameters.isEmpty <;>
        cases htr : trgRoutesHaveIntent g fid p.transitionRouteGroups <;>
          simp [hi, hf, htr]
  · intro ht
    rw [h1, ht, pageAcceptsInput]
    cases hi : hasIntentRoute p.transitionRoutes <;>
      cases hf : p.formParameters.isEmpty <;> simp [hi, hf]

/-- C6 witness: the amended equation at the concrete page of `gC6`. -/
theorem C6_predicate_witness :
    "p" ≠ "Start"
    ∧ alookup (gC6.pagesOf "f") "p" = some pageC6
    ∧ isInputPage gC6 "f" "p"
        = (pageAcceptsInput pageC6 || trgRoutesHaveIntent gC6 "f" pageC6.transitionRouteGroups) :=
  ⟨by decide, by decide, (C6_predicate_amended gC6 "f" "p" pageC6 (by decide) (by decide)).1⟩

/-- C7: for every page that is not input-accepting, the stuck-state pass
emits exactly one `Error` finding iff no transition route's condition
lowercases to `"true"`; any route whose condition lowercases to `"true"`
suppresses the finding; a page yields at most one finding; and the pass is
the per-page function folded over all flows and pages. -/
theorem C7_stuck_confirmed (flowDisp pid : String) (p : Page) (g : Graph)
    (hni : pageAcceptsInput p = false) :
    ((stuckPageIssues flowDisp pid p
        = [{ flow := flowDisp, page := p.displayName.getD pid,
             issue := "Potential Stuck Page (No Input, No True Route)",
             severity := Severity.Error }])
      ↔ ∀ r ∈ p.transitionRoutes, strToLower (r.condition.getD "") ≠ "true")
    ∧ (stuckPageIssues flowDisp pid p).length ≤ 1
    ∧ (∀ r ∈ p.transitionRoutes, strToLower (r.condition.getD "") = "true" →
        stuckPageIssues flowDisp pid p = [])
    ∧ checkStuckPages g
      = g.flows.flatMap (fun fp => (g.pagesOf fp.1).flatMap (fun pp =>
          stuckPageIssues (fp.2.displayName.getD fp.1) pp.1 pp.2)) := by
  by_cases hex : ∃ r ∈ p.transitionRoutes, strToLower (r.condition.getD "") = "true"
  · have hz : stuckPageIssues flowDisp pid p = [] := by
      simp [stuckPageIssues, hni, hex]
    refine ⟨?_, ?_, ?_, rfl⟩
    · rw [hz]
      constructor
      · intro hcontra
        exact absurd hcontra (by simp)
      · intro hall
        obtain ⟨r, hr, hrt⟩ := hex
        exact absurd hrt (hall r hr)
    · rw [hz]; simp
    · intro r _ _; exact hz
  · have ho : stuckPageIssues flowDisp pid p
        = [{ flow := flowDisp, page := p.displayName.getD pid,
             issue := "Potential Stuck Page (No Input, No True Route)",
             severity := Severity.Error }] := by
      simp [stuckPageIssues, hni, hex]
    refine ⟨?_, ?_, ?_, rfl⟩
    · rw [ho]
      constructor
      · intro _ r hr hrt
        exact hex ⟨r, hr, hrt⟩
      · intro _; rfl
    · rw [ho]; simp
    · intro r hr hrt
      exact absurd ⟨r, hr, hrt⟩ hex

/-- C7 witness: the claim at a concrete non-input page with a single
conditional (non-`"true"`) route. -/
theorem C7_stuck_witness :
    pageAcceptsInput pageC7 = false
    ∧ stuckPageIssues "F" "p" pageC7
        = [{ flow := "F", page := "P",
             issue := "Potential Stuck Page (No Input, No True Route)",
             severity := Severity.Error }] :=
  ⟨by decide, ((C7_stuck_confirmed "F" "p" pageC7 gC1 (by decide)).1).mpr (by decide)⟩

/-- C8 counterexample: the only route of `gC8` carries both a target flow
and a target page, and the reachability BFS follows it: page `A` is visited
(and reported reachable), contradicting that no traversal follows an edge
whose target-flow reference is set. -/
theorem C8_target_flow_counterexample :
    isTruthy routeC8.targetFlow = true
    ∧ flowC8.transitionRoutes = [routeC8]
    ∧ "A" ∈ findReachablePages gC8 "f"
    ∧ checkUnreachablePages gC8 = [] :=
  ⟨by decide, rfl, by decide, by decide⟩

/-- C8 (amended): the loop-detection DFS never follows a route whose target
flow is set and emits no finding for it, but the reachability BFS ignores
the target-flow field entirely — its edge step is insensitive to that field
and follows the target page when present, as on `gC8`. -/
theorem C8_target_flow_amended :
    (∀ (g : Graph) (fid : String) (t : Nat)
       (R : String → String → Nat → List Finding → List Finding)
       (curName : String) (tc : Nat) (npath : List String)
       (issues : List Finding) (route : Route),
       isTruthy route.targetFlow = true →
       loopRouteStep g fid t R curName tc npath issues route = issues)
    ∧ (∀ (g : Graph) (fid : String) (v q : List String) (route : Route) (tf : Option String),
        bfsStep g fid (v, q) route = bfsStep g fid (v, q) { route with targetFlow := tf })
    ∧ "A" ∈ findReachablePages gC8 "f" := by
  refine ⟨?_, ?_, by decide⟩
  · intro g fid t R curName tc npath issues route h
    simp [loopRouteStep, h]
  · intro g fid v q route tf
    rfl

/-- C8 witness: the amended DFS statement at the concrete route of `gC8`. -/
theorem C8_target_flow_witness :
    isTruthy routeC8.targetFlow = true
    ∧ loopRouteStep gC8 "f" 25 (fun _ _ _ is => is) "Start" 0 ["Start"] [] routeC8 = [] :=
  ⟨by decide,
    C8_target_flow_amended.1 gC8 "f" 25 (fun _ _ _ is => is) "Start" 0 ["Start"] [] routeC8
      (by decide)⟩

/-- C9: both traversals are total at their chosen fuel.  The BFS result is
unchanged by any extra fuel beyond `#pages + 1`, and the loop recursion
started at transition count 0 gives the same result for every fuel of at
least `threshold + 1` — each recursive step adds a cost of at least 1 and
recursion stops below the threshold, bounding the search depth. -/
theorem C9_termination_confirmed (g : Graph) (fid : String) (extra : Nat) :
    (bfsLoop g fid ((g.pagesOf fid).length + 1 + extra) ["Start"] ["Start"]
      = findReachablePages g fid)
    ∧ (∀ (t f : Nat) (cid cname : String) (path : List String) (issues : List Finding),
        t + 1 ≤ f →
        detectLoopsRecF g fid t f cid cname 0 path issues
          = detectLoopsRecF g fid t (t + 1) cid cname 0 path issues) := by
  have h1 : unvisitedCount g fid ["Start"] ≤ (g.pagesOf fid).length := by
    rw [unvisitedCount]
    calc ((pageKeys g fid).dedup).countP (fun k => decide (k ∉ (["Start"] : List String)))
        ≤ (pageKeys g fid).dedup.length := List.countP_le_length _
      _ ≤ (pageKeys g fid).length := (List.dedup_sublist _).length_le
      _ = (g.pagesOf fid).length := by rw [pageKeys, List.length_map]
  constructor
  · rw [findReachablePages]
    apply bfsLoop_stable
    · simp only [List.length_cons, List.length_nil]
      omega
    · simp only [List.length_cons, List.length_nil]
      omega
  · intro t f cid cname path issues hf
    exact detectLoopsRecF_fuel_stable g fid t f (t + 1) cid cname 0 path issues
      (by omega) (by omega) (by omega) (by omega)

/-- C9 witness: fuel stability of the loop recursion at a concrete graph,
threshold 25, fuels 30 and 26. -/
theorem C9_termination_witness :
    25 + 1 ≤ 30
    ∧ detectLoopsRecF gC3 "f" 25 30 "Start" "Start" 0 [] []
        = detectLoopsRecF gC3 "f" 25 26 "Start" "Start" 0 [] [] :=
  ⟨by decide, (C9_termination_confirmed gC3 "f" 0).2 25 30 "Start" "Start" [] [] (by decide)⟩

/-- C10: a flow subdirectory without a flow document named after the
directory contributes nothing to the loaded graph; an absent `flows`
directory loads the empty graph; and on any graph with no flows every one
of the five analysis passes returns the empty finding list. -/
theorem C10_loader_confirmed (pre post : List FlowFolder) (folder : FlowFolder) (g : Graph)
    (t : Nat) (hnone : folder.flowDoc = none) (hflows : g.flows = []) :
    loadAgent ⟨some (pre ++ folder :: post)⟩ = loadAgent ⟨some (pre ++ post)⟩
    ∧ loadAgent ⟨none⟩ = ({} : Graph)
    ∧ ({} : Graph).flows = []
    ∧ checkUnreachablePages g = []
    ∧ checkMissingEventHandlers g = []
    ∧ checkStuckPages g = []
    ∧ checkUnusedRouteGroups g = []
    ∧ detectPossibleLoops g t = [] := by
  have hskip : ∀ x : Graph, loadFolder x folder = x := by
    intro x
    simp only [loadFolder, hnone]
  refine ⟨?_, rfl, rfl, ?_, ?_, ?_, ?_, ?_⟩
  · simp only [loadAgent, List.foldl_append, List.foldl_cons, hskip]
  · simp [checkUnreachablePages, hflows]
  · simp [checkMissingEventHandlers, hflows]
  · simp [checkStuckPages, hflows]
  · simp [checkUnusedRouteGroups, hflows]
  · simp [detectPossibleLoops, hflows]

/-- C10 witness: the claim at a concrete documentless folder and the empty
graph. -/
theorem C10_loader_witness :
    folderW.flowDoc = none
    ∧ ({} : Graph).flows = []
    ∧ loadAgent ⟨some [folderW]⟩ = loadAgent ⟨some []⟩
    ∧ detectPossibleLoops ({} : Graph) 25 = [] :=
  ⟨rfl, rfl, (C10_loader_confirmed [] [] folderW {} 25 rfl rfl).1,
    (C10_loader_confirmed [] [] folderW {} 25 rfl rfl).2.2.2.2.2.2.2⟩

end DfcxGraphLinter
